import Mathlib

/-!
Shallow embedding of `skills/video-frame-extractor/scripts/extract_video_frames.py`.

Python floats are modelled as exact rationals (`ℚ`).  Collaborator calls
(`ffprobe` / `ffmpeg` subprocesses and the filesystem) are modelled as
explicit environment records of deterministic functions; ghost trace fields
record which collaborator calls were attempted.
-/

deriving instance DecidableEq for Except

/-- Models a Python `set` of floats built by repeated `.add` calls: the
underlying collection of distinct elements, kept as a duplicate-free list in
insertion order.  `setInsert s x` is `s.add(x)`. -/
def setInsert (s : List ℚ) (x : ℚ) : List ℚ :=
  if x ∈ s then s else s ++ [x]

/-- The `while cursor < duration_seconds` loop of `build_timestamps`
(`extract_video_frames.py` lines 93-96), with an explicit fuel argument to
make the recursion structural.  `tsLoop_add_fuel` below shows the fuel used
by `build_timestamps` is enough: adding more fuel does not change the result,
so the fuelled loop agrees with the unbounded Python loop. -/
def tsLoop (duration_seconds interval_seconds : ℚ) :
    ℕ → ℚ → List ℚ → List ℚ
  | 0, _, acc => acc
  | fuel + 1, cursor, acc =>
    if cursor < duration_seconds then
      tsLoop duration_seconds interval_seconds fuel (cursor + interval_seconds)
        (setInsert acc cursor)
    else acc

/-- `build_timestamps(duration_seconds, interval_seconds)`
(`extract_video_frames.py` lines 85-98).  Raising `ValueError` is modelled as
`Except.error`; the Python set `{0.0}` grown by the loop and then `sorted` is
modelled by `tsLoop` starting from `[0]` followed by an ascending sort. -/
def build_timestamps (duration_seconds interval_seconds : ℚ) :
    Except String (List ℚ) :=
  if interval_seconds ≤ 0 then
    .error "time_interval must be greater than 0"
  else if duration_seconds ≤ 0 then
    .ok [0]
  else
    .ok ((tsLoop duration_seconds interval_seconds
        ⌈duration_seconds / interval_seconds⌉₊ interval_seconds [0]).insertionSort
      (· ≤ ·))

/-- Left-pads the decimal digits of `n` with zeros to width `w`, modelling
Python's `f"{n:0wd}"` for a non-negative `n`. -/
def padZeros (w : ℕ) (n : ℕ) : String :=
  let s := toString n
  String.mk (List.replicate (w - s.length) '0') ++ s

/-- Rounds a rational to the nearest integer, ties to even — the rounding
used by Python's fixed-point float formatting. -/
def roundHalfEven (q : ℚ) : ℤ :=
  let f := ⌊q⌋
  let frac := q - f
  if frac < 1 / 2 then f
  else if 1 / 2 < frac then f + 1
  else if f % 2 = 0 then f else f + 1

/-- Models Python's `f"{timestamp:.3f}"`: the value rounded (half to even) to
three decimal places, rendered with exactly three fractional digits. -/
def formatFixed3 (timestamp : ℚ) : String :=
  let n := roundHalfEven (timestamp * 1000)
  let m := n.natAbs
  (if n < 0 then "-" else "") ++ toString (m / 1000) ++ "." ++ padZeros 3 (m % 1000)

/-- Models `.replace(".", "p")`: the pattern is a single character, so the
replacement is a per-character map. -/
def replaceDotWithP (s : String) : String :=
  String.mk (s.data.map fun c => if c = '.' then 'p' else c)

/-- `output_frame_name(index, timestamp)` (`extract_video_frames.py`
lines 101-103): `frame_{index:06d}_t{ts}.jpg` where `ts` is the timestamp
formatted to three decimals with `.` replaced by `p`. -/
def output_frame_name (index : ℕ) (timestamp : ℚ) : String :=
  let ts := replaceDotWithP (formatFixed3 timestamp)
  "frame_" ++ padZeros 6 index ++ "_t" ++ ts ++ ".jpg"

/-- The `VideoResult` dataclass (`extract_video_frames.py` lines 43-49), with
`Path` fields as strings. -/
structure VideoResult where
  video_path : String
  output_dir : String
  requested_frames : ℕ
  written_frames : ℕ
  errors : List String
deriving DecidableEq, Repr

/-- Environment of one `convert_video` call: the outcomes of every
collaborator interaction for this video.  `probe` is the outcome of
`probe_duration_seconds` (error message, or the probed duration).
`renderAt index timestamp` is the outcome of the `extract_one_frame` call for
the frame with that index and timestamp together with the subsequent
file-size check: `.error msg` if the call raised, `.ok b` with `b` true iff
the output file exists and has non-zero size.  `renderLast` is the same for
the `extract_last_frame` call. -/
structure VideoEnv where
  video_path : String
  output_dir : String
  probe : Except String ℚ
  renderAt : ℕ → ℚ → Except String Bool
  renderLast : Except String Bool

/-- Running state of the per-timestamp render loop of `convert_video`: the
`written` counter, the `errors` accumulator, and a ghost trace of the
`extract_one_frame` calls attempted so far. -/
structure RenderState where
  written : ℕ
  errors : List String
  calls : List (ℕ × ℚ)
deriving DecidableEq, Repr

/-- One iteration of the `for index, timestamp in enumerate(timestamps, 1)`
loop of `convert_video` (`extract_video_frames.py` lines 177-186). -/
def renderStep (env : VideoEnv) (st : RenderState) (it : ℕ × ℚ) : RenderState :=
  let frame_name := output_frame_name it.1 it.2
  match env.renderAt it.1 it.2 with
  | .ok true => ⟨st.written + 1, st.errors, st.calls ++ [it]⟩
  | .ok false =>
    ⟨st.written,
      st.errors ++ ["Empty frame output: " ++ env.output_dir ++ "/" ++ frame_name],
      st.calls ++ [it]⟩
  | .error e => ⟨st.written, st.errors ++ [frame_name ++ ": " ++ e], st.calls ++ [it]⟩

/-- Result of `convert_video` together with ghost traces: the list of
`extract_one_frame` calls attempted and the number of `extract_last_frame`
calls attempted. -/
structure ConvertOutcome where
  result : VideoResult
  renderAt_calls : List (ℕ × ℚ)
  renderLast_calls : ℕ
deriving DecidableEq, Repr

/-- `convert_video(video_path, interval_seconds, output_root)`
(`extract_video_frames.py` lines 158-198).  The resolved output directory and
all collaborator outcomes are supplied by `env`; directory creation has no
bearing on the returned result and is not modelled.  A `probe_duration_seconds`
or `build_timestamps` failure short-circuits to a result with
`requested = written = 0` and that single error (lines 171-175); otherwise
every scheduled timestamp is rendered in order, then the last frame, and the
result carries `requested = len(timestamps) + 1` (lines 177-198). -/
def convert_video (env : VideoEnv) (interval_seconds : ℚ) : ConvertOutcome :=
  match env.probe with
  | .error e => ⟨⟨env.video_path, env.output_dir, 0, 0, [e]⟩, [], 0⟩
  | .ok duration =>
    match build_timestamps duration interval_seconds with
    | .error e => ⟨⟨env.video_path, env.output_dir, 0, 0, [e]⟩, [], 0⟩
    | .ok timestamps =>
      let st := (List.enumFrom 1 timestamps).foldl (renderStep env) ⟨0, [], []⟩
      let last_name := output_frame_name (timestamps.length + 1) duration
      let st' : RenderState :=
        match env.renderLast with
        | .ok true => ⟨st.written + 1, st.errors, st.calls⟩
        | .ok false =>
          ⟨st.written,
            st.errors ++ ["Empty frame output: " ++ env.output_dir ++ "/" ++ last_name],
            st.calls⟩
        | .error e => ⟨st.written, st.errors ++ [last_name ++ ": " ++ e], st.calls⟩
      ⟨⟨env.video_path, env.output_dir, timestamps.length + 1, st'.written, st'.errors⟩,
        st'.calls, 1⟩

/-- The `failed_videos` list of `main` (`extract_video_frames.py` line 402):
results with zero written frames or a non-empty (truthy) error list. -/
def failed_videos (results : List VideoResult) : List VideoResult :=
  results.filter fun res => decide (res.written_frames = 0 ∨ res.errors ≠ [])

/-- The exit code computed by `main` from the collected results
(`extract_video_frames.py` line 422): `return 1 if failed_videos else 0`. -/
def batch_exit_code (results : List VideoResult) : ℕ :=
  if failed_videos results = [] then 0 else 1

/-- Filesystem and collaborator environment of `run_quality_sampling`:
whether a directory exists, the JPG files `folder.glob("*.jpg")` yields, and
the outcome of `validate_jpg` on an image path (a fixed function of the
path, as the collaborator's probe is deterministic for a fixed file). -/
structure SampleFs where
  dirExists : String → Bool
  listJpgs : String → List String
  validate_jpg : String → Bool × String

/-- A deterministic seeded pseudo-random generator, modelling
`random.Random`: `init seed` is `random.Random(seed)`, and
`sample state pool k` is `rng.sample(pool, k)` — the selected elements
together with the advanced generator state. -/
structure Rng (σ : Type) where
  init : ℕ → σ
  sample : σ → List String → ℕ → List String × σ

/-- Outcome of `run_quality_sampling`: the returned
`(checked, passed, messages)` triple, plus ghost traces of the directories
sampled, the images sampled, and the number of `validate_jpg` calls. -/
structure QaOutcome where
  checked : ℕ
  passed : ℕ
  messages : List String
  sampled_dirs : List String
  sampled_images : List String
  validate_calls : ℕ
deriving DecidableEq, Repr

/-- The candidate pool of `run_quality_sampling`
(`extract_video_frames.py` lines 243-245): output directories of results
with `written_frames > 0` whose directory exists. -/
def candidate_dirs (fs : SampleFs) (results : List VideoResult) : List String :=
  (results.filter fun res =>
    decide (0 < res.written_frames) && fs.dirExists res.output_dir).map
    (fun res => res.output_dir)

/-- One iteration of the `for folder in chosen_dirs` loop of
`run_quality_sampling` (`extract_video_frames.py` lines 254-268), threading
the generator state. -/
def qaFolderStep {σ : Type} (R : Rng σ) (fs : SampleFs) (sample_images_per_dir : ℕ)
    (st : σ × QaOutcome) (folder : String) : σ × QaOutcome :=
  let images := (fs.listJpgs folder).insertionSort (· ≤ ·)
  if images = [] then
    (st.1, { st.2 with
      messages := st.2.messages ++
        ["[WARN] No JPG images found in sampled folder: " ++ folder] })
  else
    let s := R.sample st.1 images (min sample_images_per_dir images.length)
    let o := s.1.foldl (fun o image_path =>
      let v := fs.validate_jpg image_path
      if v.1 then
        { o with
          checked := o.checked + 1
          passed := o.passed + 1
          messages := o.messages ++ ["[OK] " ++ image_path ++ " -> " ++ v.2]
          sampled_images := o.sampled_images ++ [image_path]
          validate_calls := o.validate_calls + 1 }
      else
        { o with
          checked := o.checked + 1
          messages := o.messages ++ ["[FAIL] " ++ image_path ++ " -> " ++ v.2]
          sampled_images := o.sampled_images ++ [image_path]
          validate_calls := o.validate_calls + 1 }) st.2
    (s.2, o)

/-- `run_quality_sampling(results, sample_dirs, sample_images_per_dir, seed)`
(`extract_video_frames.py` lines 236-270).  The generator is seeded locally;
when the candidate pool is empty the function returns immediately with the
single informational message. -/
def run_quality_sampling {σ : Type} (R : Rng σ) (fs : SampleFs)
    (results : List VideoResult) (sample_dirs sample_images_per_dir : ℕ)
    (seed : ℕ) : QaOutcome :=
  let rng := R.init seed
  let cands := candidate_dirs fs results
  if cands = [] then
    ⟨0, 0, ["No converted directories available for sampling."], [], [], 0⟩
  else
    let s := R.sample rng cands (min sample_dirs cands.length)
    ((s.1.foldl (qaFolderStep R fs sample_images_per_dir)
      (s.2, ⟨0, 0, [], s.1, [], 0⟩)).2)

/-- A collaborator environment for a 95-second video on which every render
succeeds; used to instantiate the general theorems at a concrete input. -/
def envAllOk : VideoEnv :=
  ⟨"/videos/a.mp4", "/videos/a", .ok 95, fun _ _ => .ok true, .ok true⟩

/-- A collaborator environment for a 95-second video on which exactly the
third scheduled render (timestamp 60) raises and everything else succeeds. -/
def envOneFail : VideoEnv :=
  ⟨"/videos/b.mp4", "/videos/b", .ok 95,
    fun k _ => if k = 3 then .error "render failed" else .ok true, .ok true⟩

/-- A trivial deterministic generator over state `ℕ`, used to instantiate the
QA-sampler theorems at a concrete input. -/
def natRng : Rng ℕ :=
  ⟨fun seed => seed, fun s pool k => (pool.take k, s + 1)⟩

/-- A concrete sampling filesystem where every directory exists, no directory
holds images, and validation always passes. -/
def plainFs : SampleFs :=
  ⟨fun _ => true, fun _ => [], fun _ => (true, "8x8, codec=mjpeg")⟩

/-- Inserting an element larger than everything in the list appends it. -/
theorem setInsert_of_forall_lt {s : List ℚ} {c : ℚ} (h : ∀ x ∈ s, x < c) :
    setInsert s c = s ++ [c] := by
  rw [setInsert, if_neg]
  intro hc
  exact absurd (h c hc) (lt_irrefl c)

/-- Unfolding lemma: exhausted fuel. -/
theorem tsLoop_zero (d i c : ℚ) (acc : List ℚ) : tsLoop d i 0 c acc = acc := rfl

/-- Unfolding lemma: one loop test. -/
theorem tsLoop_succ (d i c : ℚ) (n : ℕ) (acc : List ℚ) :
    tsLoop d i (n + 1) c acc =
      if c < d then tsLoop d i n (c + i) (setInsert acc c) else acc := rfl

/-- Loop invariant of `tsLoop`: starting from a strictly increasing
accumulator lying strictly below both the cursor and the duration, the loop
returns a strictly increasing extension of the accumulator whose elements
all lie strictly below the duration. -/
theorem tsLoop_invariant {d i : ℚ} (hi : 0 < i) (fuel : ℕ) :
    ∀ (cursor : ℚ) (acc : List ℚ), acc.Pairwise (· < ·) →
      (∀ x ∈ acc, x < cursor) → (∀ x ∈ acc, x < d) →
      (tsLoop d i fuel cursor acc).Pairwise (· < ·) ∧
        (∀ x ∈ tsLoop d i fuel cursor acc, x < d) ∧
        acc <+: tsLoop d i fuel cursor acc := by
  induction fuel with
  | zero => exact fun cursor acc hp hc hd => ⟨hp, hd, List.prefix_rfl⟩
  | succ n ih =>
    intro cursor acc hp hc hd
    rw [tsLoop_succ]
    by_cases hlt : cursor < d
    · rw [if_pos hlt, setInsert_of_forall_lt hc]
      have hp' : (acc ++ [cursor]).Pairwise (· < ·) := by
        rw [List.pairwise_append]
        refine ⟨hp, List.pairwise_singleton _ _, ?_⟩
        intro a ha b hb
        rw [List.mem_singleton] at hb
        exact hb ▸ hc a ha
      have hc' : ∀ x ∈ acc ++ [cursor], x < cursor + i := by
        intro x hx
        rcases List.mem_append.1 hx with h | h
        · exact (hc x h).trans (lt_add_of_pos_right cursor hi)
        · rw [List.mem_singleton] at h
          exact h ▸ lt_add_of_pos_right cursor hi
      have hd' : ∀ x ∈ acc ++ [cursor], x < d := by
        intro x hx
        rcases List.mem_append.1 hx with h | h
        · exact hd x h
        · rw [List.mem_singleton] at h
          exact h ▸ hlt
      obtain ⟨P, D, pre⟩ := ih (cursor + i) (acc ++ [cursor]) hp' hc' hd'
      exact ⟨P, D, (acc.prefix_append [cursor]).trans pre⟩
    · rw [if_neg hlt]
      exact ⟨hp, hd, List.prefix_rfl⟩

/-- Arithmetic kernel of the schedule-length bound: for positive `x`,
`⌈x - 1⌉₊` is strictly below `⌈x⌉₊`. -/
theorem ceil_sub_one_succ_le {x : ℚ} (hx : 0 < x) : ⌈x - 1⌉₊ + 1 ≤ ⌈x⌉₊ := by
  have h1 : 0 < ⌈x⌉₊ := Nat.ceil_pos.2 hx
  have h2 : ⌈x - 1⌉₊ ≤ ⌈x⌉₊ - 1 := by
    rw [Nat.ceil_le, Nat.cast_sub h1, Nat.cast_one]
    linarith [Nat.le_ceil x]
  omega

/-- `setInsert` grows the list by at most one element. -/
theorem setInsert_length_le (s : List ℚ) (x : ℚ) :
    (setInsert s x).length ≤ s.length + 1 := by
  rw [setInsert]
  split
  · exact Nat.le_succ _
  · simp

/-- Each loop pass adds at most one element, so the loop output is bounded by
the accumulator length plus the remaining pass count `⌈(d - cursor)/i⌉₊`. -/
theorem tsLoop_length_le {d i : ℚ} (hi : 0 < i) (fuel : ℕ) :
    ∀ (cursor : ℚ) (acc : List ℚ),
      (tsLoop d i fuel cursor acc).length ≤ acc.length + ⌈(d - cursor) / i⌉₊ := by
  have hne : i ≠ 0 := ne_of_gt hi
  induction fuel with
  | zero => exact fun c acc => Nat.le_add_right _ _
  | succ n ih =>
    intro c acc
    rw [tsLoop_succ]
    by_cases hlt : c < d
    · rw [if_pos hlt]
      have h1 := ih (c + i) (setInsert acc c)
      have h2 : (d - (c + i)) / i = (d - c) / i - 1 := by
        rw [show d - (c + i) = d - c - i by ring, sub_div, div_self hne]
      have h4 : ⌈(d - c) / i - 1⌉₊ + 1 ≤ ⌈(d - c) / i⌉₊ :=
        ceil_sub_one_succ_le (div_pos (by linarith) hi)
      have h5 := setInsert_length_le acc c
      rw [h2] at h1
      omega
    · rw [if_neg hlt]
      exact Nat.le_add_right _ _

/-- Adding one unit of fuel beyond `⌈(d - cursor)/i⌉₊` does not change the
loop's output: the guard fails before the fuel runs out. -/
theorem tsLoop_fuel_succ {d i : ℚ} (hi : 0 < i) (fuel : ℕ) :
    ∀ (cursor : ℚ) (acc : List ℚ), ⌈(d - cursor) / i⌉₊ ≤ fuel →
      tsLoop d i (fuel + 1) cursor acc = tsLoop d i fuel cursor acc := by
  have hne : i ≠ 0 := ne_of_gt hi
  induction fuel with
  | zero =>
    intro c acc h
    have h0 : (d - c) / i ≤ 0 := Nat.ceil_eq_zero.1 (Nat.le_zero.1 h)
    have hneg : ¬ c < d := fun hlt =>
      absurd h0 (not_le.2 (div_pos (by linarith) hi))
    rw [tsLoop_succ, if_neg hneg, tsLoop_zero]
  | succ n ih =>
    intro c acc h
    rw [tsLoop_succ, tsLoop_succ d i c n]
    by_cases hlt : c < d
    · rw [if_pos hlt, if_pos hlt]
      apply ih
      rw [Nat.ceil_le]
      have h' : (d - c) / i ≤ ((n : ℚ) + 1) := by exact_mod_cast Nat.ceil_le.1 h
      have h2 : (d - (c + i)) / i = (d - c) / i - 1 := by
        rw [show d - (c + i) = d - c - i by ring, sub_div, div_self hne]
      rw [h2]
      linarith
    · rw [if_neg hlt, if_neg hlt]

/-- Fuel irrelevance: any fuel at least `⌈(d - cursor)/i⌉₊` gives the same
output, so the fuelled loop computes the Python `while` loop. -/
theorem tsLoop_fuel_stable {d i : ℚ} (hi : 0 < i) (fuel extra : ℕ) (cursor : ℚ)
    (acc : List ℚ) (h : ⌈(d - cursor) / i⌉₊ ≤ fuel) :
    tsLoop d i (fuel + extra) cursor acc = tsLoop d i fuel cursor acc := by
  induction extra with
  | zero => rfl
  | succ n ih =>
    rw [show fuel + (n + 1) = (fuel + n) + 1 by omega,
      tsLoop_fuel_succ hi (fuel + n) cursor acc (h.trans (Nat.le_add_right fuel n)), ih]

/-- The fuel `⌈duration/interval⌉₊` used by `build_timestamps` is sufficient:
extra fuel does not change the result. -/
theorem build_timestamps_fuel_sufficient (d i : ℚ) (hi : 0 < i) (extra : ℕ) :
    tsLoop d i (⌈d / i⌉₊ + extra) i [0] = tsLoop d i ⌈d / i⌉₊ i [0] :=
  tsLoop_fuel_stable hi _ extra i [0]
    (Nat.ceil_mono ((div_le_div_iff_of_pos_right hi).2 (by linarith)))

/-- On positive duration and interval, `build_timestamps` succeeds, its loop
output is already strictly increasing (so the final sort is the identity),
all elements are below the duration, and `[0]` is a prefix. -/
theorem build_timestamps_pos_spec (d i : ℚ) (hd : 0 < d) (hi : 0 < i) :
    build_timestamps d i = .ok (tsLoop d i ⌈d / i⌉₊ i [0]) ∧
      (tsLoop d i ⌈d / i⌉₊ i [0]).Pairwise (· < ·) ∧
      (∀ x ∈ tsLoop d i ⌈d / i⌉₊ i [0], x < d) ∧
      [0] <+: tsLoop d i ⌈d / i⌉₊ i [0] := by
  have hinv := tsLoop_invariant hi ⌈d / i⌉₊ i [0]
    (List.pairwise_singleton _ _)
    (by
      intro x hx
      rw [List.mem_singleton] at hx
      exact hx ▸ hi)
    (by
      intro x hx
      rw [List.mem_singleton] at hx
      exact hx ▸ hd)
  obtain ⟨P, D, pre⟩ := hinv
  refine ⟨?_, P, D, pre⟩
  rw [build_timestamps, if_neg (not_le.2 hi), if_neg (not_le.2 hd),
    List.Sorted.insertionSort_eq (P.imp le_of_lt)]

/-- C1: for every duration > 0 and interval > 0, `build_timestamps` returns a
strictly increasing list whose first element is 0.0 and whose last element is
strictly less than the duration. -/
theorem build_timestamps_strictly_increasing (duration interval : ℚ)
    (hd : 0 < duration) (hi : 0 < interval) :
    ∃ ts, build_timestamps duration interval = .ok ts ∧
      ts.Pairwise (· < ·) ∧ ts.head? = some 0 ∧
      ∃ last, ts.getLast? = some last ∧ last < duration := by
  obtain ⟨hok, P, D, pre⟩ := build_timestamps_pos_spec duration interval hd hi
  refine ⟨_, hok, P, ?_, ?_⟩
  · obtain ⟨t, ht⟩ := pre
    rw [← ht]
    rfl
  · obtain ⟨t, ht⟩ := pre
    have hne : tsLoop duration interval ⌈duration / interval⌉₊ interval [0] ≠ [] := by
      rw [← ht]
      simp
    refine ⟨_, List.getLast?_eq_getLast _ hne, D _ (List.getLast_mem hne)⟩

/-- Witness for C1 at duration 95, interval 30. -/
theorem build_timestamps_strictly_increasing_witness :
    (0:ℚ) < 95 ∧ (0:ℚ) < 30 ∧
      ∃ ts, build_timestamps 95 30 = .ok ts ∧
        ts.Pairwise (· < ·) ∧ ts.head? = some 0 ∧
        ∃ last, ts.getLast? = some last ∧ last < 95 :=
  ⟨by norm_num, by norm_num,
    build_timestamps_strictly_increasing 95 30 (by norm_num) (by norm_num)⟩

/-- C6: for every duration and every interval ≤ 0, `build_timestamps` fails
with the invalid-interval error and returns no timestamp list. -/
theorem build_timestamps_invalid_interval (duration interval : ℚ)
    (hi : interval ≤ 0) :
    build_timestamps duration interval =
      .error "time_interval must be greater than 0" := by
  rw [build_timestamps, if_pos hi]

/-- Witness for C6 at duration -3, interval 0. -/
theorem build_timestamps_invalid_interval_witness :
    (0:ℚ) ≤ 0 ∧
      build_timestamps (-3) 0 = .error "time_interval must be greater than 0" :=
  ⟨le_refl 0, build_timestamps_invalid_interval (-3) 0 (le_refl 0)⟩

/-- C7: for every duration > 0 and interval > 0, the returned schedule has at
most `⌈duration / interval⌉` timestamps. -/
theorem build_timestamps_length_le_ceil (duration interval : ℚ)
    (hd : 0 < duration) (hi : 0 < interval) (ts : List ℚ)
    (h : build_timestamps duration interval = .ok ts) :
    ts.length ≤ ⌈duration / interval⌉₊ := by
  obtain ⟨hok, P, D, pre⟩ := build_timestamps_pos_spec duration interval hd hi
  rw [hok] at h
  have hts : ts = tsLoop duration interval ⌈duration / interval⌉₊ interval [0] :=
    (Except.ok.inj h).symm
  have hlen :=
    @tsLoop_length_le duration interval hi ⌈duration / interval⌉₊ interval [0]
  have hkey : ⌈(duration - interval) / interval⌉₊ + 1 ≤ ⌈duration / interval⌉₊ := by
    have h2 : (duration - interval) / interval = duration / interval - 1 := by
      rw [sub_div, div_self (ne_of_gt hi)]
    rw [h2]
    exact ceil_sub_one_succ_le (div_pos hd hi)
  rw [hts]
  calc (tsLoop duration interval ⌈duration / interval⌉₊ interval [0]).length
      ≤ 1 + ⌈(duration - interval) / interval⌉₊ := hlen
    _ ≤ ⌈duration / interval⌉₊ := by omega

/-- Concrete evaluation of the scheduler on the spec's running example: a
95-second video sampled every 30 seconds yields `[0, 30, 60, 90]`. -/
theorem build_timestamps_95_30 : build_timestamps 95 30 = .ok [0, 30, 60, 90] := by
  have h4 : ⌈(95:ℚ) / 30⌉₊ = 4 := by
    rw [Nat.ceil_eq_iff (by norm_num)]
    norm_num
  rw [build_timestamps, if_neg (by norm_num), if_neg (by norm_num), h4]
  norm_num [tsLoop, setInsert, List.insertionSort, List.orderedInsert]

/-- Witness for C7 at duration 95, interval 30: four timestamps, and
`⌈95/30⌉ = 4`. -/
theorem build_timestamps_length_le_ceil_witness :
    (0:ℚ) < 95 ∧ (0:ℚ) < 30 ∧ build_timestamps 95 30 = .ok [0, 30, 60, 90] ∧
      ([0, 30, 60, 90] : List ℚ).length ≤ ⌈(95:ℚ) / 30⌉₊ :=
  ⟨by norm_num, by norm_num, build_timestamps_95_30,
    build_timestamps_length_le_ceil 95 30 (by norm_num) (by norm_num) _
      build_timestamps_95_30⟩

/-- Each pass of the render loop contributes exactly one written-frame
increment or exactly one error, and appends exactly its item to the call
trace. -/
theorem renderStep_foldl_spec (env : VideoEnv) (l : List (ℕ × ℚ)) :
    ∀ st : RenderState,
      (l.foldl (renderStep env) st).written +
          (l.foldl (renderStep env) st).errors.length =
        st.written + st.errors.length + l.length ∧
      (l.foldl (renderStep env) st).calls = st.calls ++ l := by
  induction l with
  | nil => intro st; simp
  | cons a tl ih =>
    intro st
    rw [List.foldl_cons]
    have hstep : (renderStep env st a).written + (renderStep env st a).errors.length
          = st.written + st.errors.length + 1 ∧
        (renderStep env st a).calls = st.calls ++ [a] := by
      cases hr : env.renderAt a.1 a.2 with
      | error e => simp [renderStep, hr]; omega
      | ok b => cases b <;> simp [renderStep, hr] <;> omega
    obtain ⟨h1, h2⟩ := hstep
    obtain ⟨ih1, ih2⟩ := ih (renderStep env st a)
    rw [List.length_cons]
    refine ⟨by omega, ?_⟩
    rw [ih2, h2, List.append_assoc, List.singleton_append]

/-- When every render in the list succeeds with a non-empty file, the loop
adds one written frame per item and no errors. -/
theorem renderStep_foldl_all_ok (env : VideoEnv) (l : List (ℕ × ℚ))
    (hok : ∀ x ∈ l, env.renderAt x.1 x.2 = .ok true) :
    ∀ st : RenderState,
      l.foldl (renderStep env) st =
        ⟨st.written + l.length, st.errors, st.calls ++ l⟩ := by
  induction l with
  | nil => intro st; simp
  | cons a tl ih =>
    intro st
    rw [List.foldl_cons]
    have ha := hok a (List.mem_cons_self a tl)
    have hstep : renderStep env st a = ⟨st.written + 1, st.errors, st.calls ++ [a]⟩ := by
      simp [renderStep, ha]
    rw [hstep, ih (fun x hx => hok x (List.mem_cons_of_mem a hx))]
    refine congrArg₂ (RenderState.mk · st.errors ·) (by simp; omega) ?_
    rw [List.append_assoc, List.singleton_append]

/-- On a successful probe and schedule, `convert_video` requests one frame
per scheduled timestamp plus the last frame; written frames and errors
together account for exactly that many attempts; every scheduled timestamp is
attempted in order; and the last-frame render is attempted exactly once. -/
theorem convert_video_success_spec (env : VideoEnv) (interval d : ℚ)
    (ts : List ℚ) (hp : env.probe = .ok d)
    (hb : build_timestamps d interval = .ok ts) :
    (convert_video env interval).result.requested_frames = ts.length + 1 ∧
      (convert_video env interval).result.written_frames +
          (convert_video env interval).result.errors.length = ts.length + 1 ∧
      (convert_video env interval).renderAt_calls = List.enumFrom 1 ts ∧
      (convert_video env interval).renderLast_calls = 1 := by
  obtain ⟨h1, h2⟩ := renderStep_foldl_spec env (List.enumFrom 1 ts) ⟨0, [], []⟩
  simp only [List.enumFrom_length, List.nil_append] at h1 h2
  norm_num at h1
  cases hr : env.renderLast with
  | error e =>
    have hcv : convert_video env interval =
        ⟨⟨env.video_path, env.output_dir, ts.length + 1,
          ((List.enumFrom 1 ts).foldl (renderStep env) ⟨0, [], []⟩).written,
          ((List.enumFrom 1 ts).foldl (renderStep env) ⟨0, [], []⟩).errors ++
            [output_frame_name (ts.length + 1) d ++ ": " ++ e]⟩,
          ((List.enumFrom 1 ts).foldl (renderStep env) ⟨0, [], []⟩).calls, 1⟩ := by
      simp only [convert_video, hp, hb, hr]
    rw [hcv]
    refine ⟨rfl, ?_, h2, rfl⟩
    simp only [List.length_append, List.length_singleton]
    omega
  | ok b =>
    cases b
    · have hcv : convert_video env interval =
          ⟨⟨env.video_path, env.output_dir, ts.length + 1,
            ((List.enumFrom 1 ts).foldl (renderStep env) ⟨0, [], []⟩).written,
            ((List.enumFrom 1 ts).foldl (renderStep env) ⟨0, [], []⟩).errors ++
              ["Empty frame output: " ++ env.output_dir ++ "/" ++
                output_frame_name (ts.length + 1) d]⟩,
            ((List.enumFrom 1 ts).foldl (renderStep env) ⟨0, [], []⟩).calls, 1⟩ := by
        simp only [convert_video, hp, hb, hr]
      rw [hcv]
      refine ⟨rfl, ?_, h2, rfl⟩
      simp only [List.length_append, List.length_singleton]
      omega
    · have hcv : convert_video env interval =
          ⟨⟨env.video_path, env.output_dir, ts.length + 1,
            ((List.enumFrom 1 ts).foldl (renderStep env) ⟨0, [], []⟩).written + 1,
            ((List.enumFrom 1 ts).foldl (renderStep env) ⟨0, [], []⟩).errors⟩,
            ((List.enumFrom 1 ts).foldl (renderStep env) ⟨0, [], []⟩).calls, 1⟩ := by
        simp only [convert_video, hp, hb, hr]
      rw [hcv]
      dsimp only
      exact ⟨rfl, by omega, h2, rfl⟩

/-- C2: every `convert_video` result has `written_frames ≤ requested_frames`,
and whenever the duration probe and the scheduler both succeed,
`requested_frames` equals the length of the timestamp list plus one. -/
theorem convert_video_written_le_requested (env : VideoEnv) (interval : ℚ) :
    (convert_video env interval).result.written_frames ≤
        (convert_video env interval).result.requested_frames ∧
      ∀ d ts, env.probe = .ok d → build_timestamps d interval = .ok ts →
        (convert_video env interval).result.requested_frames = ts.length + 1 := by
  refine ⟨?_, fun d ts hp hb => (convert_video_success_spec env interval d ts hp hb).1⟩
  cases hp : env.probe with
  | error e => simp [convert_video, hp]
  | ok d =>
    cases hb : build_timestamps d interval with
    | error e => simp [convert_video, hp, hb]
    | ok ts =>
      obtain ⟨hreq, hsum, -, -⟩ := convert_video_success_spec env interval d ts hp hb
      omega

/-- Witness for C2 on the all-success 95-second environment with a
30-second interval: five frames requested for the four scheduled timestamps. -/
theorem convert_video_written_le_requested_witness :
    (convert_video envAllOk 30).result.written_frames ≤
        (convert_video envAllOk 30).result.requested_frames ∧
      envAllOk.probe = .ok 95 ∧ build_timestamps 95 30 = .ok [0, 30, 60, 90] ∧
      (convert_video envAllOk 30).result.requested_frames =
        ([0, 30, 60, 90] : List ℚ).length + 1 :=
  ⟨(convert_video_written_le_requested envAllOk 30).1, rfl, build_timestamps_95_30,
    (convert_video_written_le_requested envAllOk 30).2 95 [0, 30, 60, 90] rfl
      build_timestamps_95_30⟩

/-- C3: whenever the probe and the scheduler succeed — whatever timestamp
list the scheduler returned — `convert_video` attempts the last-frame render
exactly once. -/
theorem convert_video_last_frame_once (env : VideoEnv) (interval d : ℚ)
    (ts : List ℚ) (hp : env.probe = .ok d)
    (hb : build_timestamps d interval = .ok ts) :
    (convert_video env interval).renderLast_calls = 1 :=
  (convert_video_success_spec env interval d ts hp hb).2.2.2

/-- Witness for C3 on the all-success 95-second environment. -/
theorem convert_video_last_frame_once_witness :
    envAllOk.probe = .ok 95 ∧ build_timestamps 95 30 = .ok [0, 30, 60, 90] ∧
      (convert_video envAllOk 30).renderLast_calls = 1 :=
  ⟨rfl, build_timestamps_95_30,
    convert_video_last_frame_once envAllOk 30 95 [0, 30, 60, 90] rfl
      build_timestamps_95_30⟩

/-- C9: whenever the probe and the scheduler succeed, the finalized result
satisfies `written_frames + |errors| = requested_frames`: each attempt
contributes exactly one of the two. -/
theorem convert_video_written_add_errors (env : VideoEnv) (interval d : ℚ)
    (ts : List ℚ) (hp : env.probe = .ok d)
    (hb : build_timestamps d interval = .ok ts) :
    (convert_video env interval).result.written_frames +
        (convert_video env interval).result.errors.length =
      (convert_video env interval).result.requested_frames := by
  obtain ⟨hreq, hsum, -, -⟩ := convert_video_success_spec env interval d ts hp hb
  omega

/-- Witness for C9 on the all-success 95-second environment. -/
theorem convert_video_written_add_errors_witness :
    envAllOk.probe = .ok 95 ∧ build_timestamps 95 30 = .ok [0, 30, 60, 90] ∧
      (convert_video envAllOk 30).result.written_frames +
          (convert_video envAllOk 30).result.errors.length =
        (convert_video envAllOk 30).result.requested_frames :=
  ⟨rfl, build_timestamps_95_30,
    convert_video_written_add_errors envAllOk 30 95 [0, 30, 60, 90] rfl
      build_timestamps_95_30⟩

/-- C4: when the probe and scheduler succeed and exactly one scheduled
render raises while every other render (including the last frame) succeeds,
the job is not aborted: every scheduled timestamp is still attempted in
order, the last frame is still attempted, and the result has
`written = |ts|` of `|ts| + 1` requested frames with exactly one error
naming the failed frame file. -/
theorem convert_video_single_render_failure (env : VideoEnv) (interval d : ℚ)
    (ts : List ℚ) (l₁ l₂ : List (ℕ × ℚ)) (j : ℕ) (tj : ℚ) (msg : String)
    (hp : env.probe = .ok d) (hb : build_timestamps d interval = .ok ts)
    (hsplit : List.enumFrom 1 ts = l₁ ++ (j, tj) :: l₂)
    (hfail : env.renderAt j tj = .error msg)
    (hok1 : ∀ x ∈ l₁, env.renderAt x.1 x.2 = .ok true)
    (hok2 : ∀ x ∈ l₂, env.renderAt x.1 x.2 = .ok true)
    (hlast : env.renderLast = .ok true) :
    (convert_video env interval).renderAt_calls = List.enumFrom 1 ts ∧
      (convert_video env interval).renderLast_calls = 1 ∧
      (convert_video env interval).result.written_frames = ts.length ∧
      (convert_video env interval).result.requested_frames = ts.length + 1 ∧
      (convert_video env interval).result.errors =
        [output_frame_name j tj ++ ": " ++ msg] := by
  have hfold : (List.enumFrom 1 ts).foldl (renderStep env) ⟨0, [], []⟩ =
      ⟨l₁.length + l₂.length, [output_frame_name j tj ++ ": " ++ msg],
        l₁ ++ (j, tj) :: l₂⟩ := by
    rw [hsplit, List.foldl_append, renderStep_foldl_all_ok env l₁ hok1,
      List.foldl_cons]
    simp only [renderStep, hfail]
    rw [renderStep_foldl_all_ok env l₂ hok2]
    simp
  have hlen : ts.length = l₁.length + (l₂.length + 1) := by
    simpa [List.enumFrom_length] using congrArg List.length hsplit
  have hcv : convert_video env interval =
      ⟨⟨env.video_path, env.output_dir, ts.length + 1, l₁.length + l₂.length + 1,
        [output_frame_name j tj ++ ": " ++ msg]⟩, l₁ ++ (j, tj) :: l₂, 1⟩ := by
    simp only [convert_video, hp, hb, hlast, hfold]
  rw [hcv]
  dsimp only
  exact ⟨hsplit.symm, rfl, by omega, rfl, rfl⟩

/-- Witness for C4: the 95-second environment whose third scheduled render
(timestamp 60) fails while everything else succeeds yields 4 of 5 frames and
exactly one error naming the failed frame. -/
theorem convert_video_single_render_failure_witness :
    envOneFail.probe = .ok 95 ∧
      build_timestamps 95 30 = .ok [0, 30, 60, 90] ∧
      List.enumFrom 1 [(0:ℚ), 30, 60, 90] = [(1, (0:ℚ)), (2, 30)] ++ (3, 60) :: [(4, 90)] ∧
      envOneFail.renderAt 3 60 = .error "render failed" ∧
      envOneFail.renderAt 1 0 = .ok true ∧ envOneFail.renderAt 2 30 = .ok true ∧
      envOneFail.renderAt 4 90 = .ok true ∧
      envOneFail.renderLast = .ok true ∧
      ((convert_video envOneFail 30).renderAt_calls = List.enumFrom 1 [(0:ℚ), 30, 60, 90] ∧
        (convert_video envOneFail 30).renderLast_calls = 1 ∧
        (convert_video envOneFail 30).result.written_frames = 4 ∧
        (convert_video envOneFail 30).result.requested_frames = 5 ∧
        (convert_video envOneFail 30).result.errors =
          [output_frame_name 3 60 ++ ": " ++ "render failed"]) :=
  ⟨rfl, build_timestamps_95_30, rfl, rfl, rfl, rfl, rfl, rfl,
    convert_video_single_render_failure envOneFail 30 95 [0, 30, 60, 90]
      [(1, 0), (2, 30)] [(4, 90)] 3 60 "render failed" rfl build_timestamps_95_30
      rfl rfl (by decide) (by decide) rfl⟩

/-- A result returned by `convert_video` with an empty error list has full
frame counts and at least one written frame: a probe or schedule failure
records an error, and otherwise every unwritten frame records an error. -/
theorem convert_video_errors_empty_spec (env : VideoEnv) (interval : ℚ)
    (h : (convert_video env interval).result.errors = []) :
    (convert_video env interval).result.written_frames =
        (convert_video env interval).result.requested_frames ∧
      0 < (convert_video env interval).result.written_frames := by
  cases hp : env.probe with
  | error e => simp [convert_video, hp] at h
  | ok d =>
    cases hb : build_timestamps d interval with
    | error e => simp [convert_video, hp, hb] at h
    | ok ts =>
      obtain ⟨hreq, hsum, -, -⟩ := convert_video_success_spec env interval d ts hp hb
      rw [h] at hsum
      simp only [List.length_nil] at hsum
      omega

/-- C5: over results collected from `convert_video`, the exit code computed
by `main` is 0 iff every processed video had zero errors and full frame
counts, and 1 iff some video has issues (written < requested, non-empty
errors, or zero frames written). -/
theorem batch_exit_code_spec (jobs : List (VideoEnv × ℚ))
    (results : List VideoResult)
    (hres : results = jobs.map fun job => (convert_video job.1 job.2).result) :
    (batch_exit_code results = 0 ↔
      ∀ r ∈ results, r.errors = [] ∧ r.written_frames = r.requested_frames) ∧
    (batch_exit_code results = 1 ↔
      ∃ r ∈ results, r.written_frames < r.requested_frames ∨ r.errors ≠ [] ∨
        r.written_frames = 0) := by
  have hinv : ∀ r ∈ results, r.errors = [] →
      r.written_frames = r.requested_frames ∧ 0 < r.written_frames := by
    intro r hr
    rw [hres] at hr
    obtain ⟨job, -, rfl⟩ := List.mem_map.1 hr
    exact convert_video_errors_empty_spec job.1 job.2
  have hempty : batch_exit_code results = 0 ↔ failed_videos results = [] := by
    rw [batch_exit_code]
    split
    · simp_all
    · simp_all
  have hone : batch_exit_code results = 1 ↔ ¬ failed_videos results = [] := by
    rw [batch_exit_code]
    split
    · simp_all
    · simp_all
  have hfilter : failed_videos results = [] ↔
      ∀ r ∈ results, ¬(r.written_frames = 0 ∨ r.errors ≠ []) := by
    rw [failed_videos, List.filter_eq_nil_iff]
    simp
  constructor
  · rw [hempty, hfilter]
    constructor
    · intro h r hr
      have h' := h r hr
      push_neg at h'
      obtain ⟨-, he⟩ := h'
      obtain ⟨heq, -⟩ := hinv r hr he
      exact ⟨he, heq⟩
    · intro h r hr
      obtain ⟨he, -⟩ := h r hr
      obtain ⟨-, hpos⟩ := hinv r hr he
      push_neg
      exact ⟨by omega, he⟩
  · rw [hone, hfilter]
    constructor
    · intro h
      push_neg at h
      obtain ⟨r, hr, hor⟩ := h
      refine ⟨r, hr, ?_⟩
      rcases hor with hz | hne
      · exact Or.inr (Or.inr hz)
      · exact Or.inr (Or.inl hne)
    · intro ⟨r, hr, hor⟩ hall
      have h' := hall r hr
      push_neg at h'
      obtain ⟨hz, he⟩ := h'
      obtain ⟨heq, -⟩ := hinv r hr he
      rcases hor with hlt | hne | hzero
      · omega
      · exact hne he
      · exact hz hzero

/-- Witness for C5 on a batch of one all-success job. -/
theorem batch_exit_code_spec_witness :
    [(convert_video envAllOk 30).result] =
        ([(envAllOk, (30:ℚ))].map fun job => (convert_video job.1 job.2).result) ∧
      ((batch_exit_code [(convert_video envAllOk 30).result] = 0 ↔
        ∀ r ∈ [(convert_video envAllOk 30).result],
          r.errors = [] ∧ r.written_frames = r.requested_frames) ∧
      (batch_exit_code [(convert_video envAllOk 30).result] = 1 ↔
        ∃ r ∈ [(convert_video envAllOk 30).result],
          r.written_frames < r.requested_frames ∨ r.errors ≠ [] ∨
            r.written_frames = 0)) :=
  ⟨rfl, batch_exit_code_spec [(envAllOk, 30)] [(convert_video envAllOk 30).result] rfl⟩

/-- C8: the QA sampler is a deterministic function of the seed and the
candidate pool.  With the same seed, the same seeded generator, the same
directory listings and the same path-determined validation, two runs whose
candidate pools agree produce identical directory and image selections and
identical pass/fail outcomes. -/
theorem run_quality_sampling_deterministic {σ : Type} (R : Rng σ)
    (fs : SampleFs) (results₁ results₂ : List VideoResult)
    (sample_dirs sample_images_per_dir seed : ℕ)
    (h : candidate_dirs fs results₁ = candidate_dirs fs results₂) :
    run_quality_sampling R fs results₁ sample_dirs sample_images_per_dir seed =
      run_quality_sampling R fs results₂ sample_dirs sample_images_per_dir seed := by
  unfold run_quality_sampling
  rw [h]

/-- Witness for C8: two different result lists with the same (empty)
candidate pool give identical sampling outcomes. -/
theorem run_quality_sampling_deterministic_witness :
    candidate_dirs plainFs [⟨"/videos/a.mp4", "/videos/a", 5, 0, ["boom"]⟩] =
        candidate_dirs plainFs [] ∧
      run_quality_sampling natRng plainFs
          [⟨"/videos/a.mp4", "/videos/a", 5, 0, ["boom"]⟩] 3 3 42 =
        run_quality_sampling natRng plainFs [] 3 3 42 :=
  ⟨rfl, run_quality_sampling_deterministic natRng plainFs
    [⟨"/videos/a.mp4", "/videos/a", 5, 0, ["boom"]⟩] [] 3 3 42 rfl⟩

/-- C10: when no result has written frames in a still-existing directory, the
QA sampler returns checked = 0, passed = 0 and exactly the one informational
message, sampling no directories or images and validating nothing. -/
theorem run_quality_sampling_empty_pool {σ : Type} (R : Rng σ)
    (fs : SampleFs) (results : List VideoResult)
    (sample_dirs sample_images_per_dir seed : ℕ)
    (h : ∀ r ∈ results, ¬(0 < r.written_frames ∧ fs.dirExists r.output_dir = true)) :
    run_quality_sampling R fs results sample_dirs sample_images_per_dir seed =
      ⟨0, 0, ["No converted directories available for sampling."], [], [], 0⟩ := by
  have hc : candidate_dirs fs results = [] := by
    rw [candidate_dirs, List.map_eq_nil_iff, List.filter_eq_nil_iff]
    intro r hr
    simpa using h r hr
  unfold run_quality_sampling
  rw [hc]
  simp

/-- Witness for C10: one result with zero written frames yields the empty
pool and the bare informational outcome. -/
theorem run_quality_sampling_empty_pool_witness :
    (∀ r ∈ [(⟨"/videos/a.mp4", "/videos/a", 5, 0, ["boom"]⟩ : VideoResult)],
        ¬(0 < r.written_frames ∧ plainFs.dirExists r.output_dir = true)) ∧
      run_quality_sampling natRng plainFs
          [⟨"/videos/a.mp4", "/videos/a", 5, 0, ["boom"]⟩] 3 3 42 =
        ⟨0, 0, ["No converted directories available for sampling."], [], [], 0⟩ :=
  ⟨by decide, run_quality_sampling_empty_pool natRng plainFs
    [⟨"/videos/a.mp4", "/videos/a", 5, 0, ["boom"]⟩] 3 3 42 (by decide)⟩
